import Mathlib

/-!
Shallow embedding of the membrane-fouling calculation engine (`mf.py`) and
the CSV export worker (`ui.py`).  Floats are modelled as rationals; Python
operations that can raise (`list[i]`, `float(str)`, division by zero,
`sklearn` fitting an empty design) are modelled as `Option`-valued
functions returning `none` on the raising input.
-/

set_option maxRecDepth 8000

namespace MF

/-- The fixed column schema of a sample row (`class Column(IntEnum)`). -/
inductive Column : Type
  | TIME
  | PRESSURE
  | VOLUME
  | TEMPERATURE
deriving DecidableEq

/-- The integer value of each `Column` member (`TIME = 0`, ..., `TEMPERATURE = 3`). -/
def Column.toNat : Column → Nat
  | .TIME => 0
  | .PRESSURE => 1
  | .VOLUME => 2
  | .TEMPERATURE => 3

/-- One parsed test run: the six header fields plus the sample rows
(`self.data: list[list[float]]`).  Row lengths are not constrained by the
constructor, exactly as in the Python code. -/
structure MembraneFouling : Type where
  date : String
  time : String
  sdi : ℚ
  ti : ℚ
  tf : ℚ
  status : String
  data : List (List ℚ)
deriving DecidableEq

/-- Python float division: raises `ZeroDivisionError` on a zero divisor. -/
def pyDiv (a b : ℚ) : Option ℚ :=
  if b = 0 then none else some (a / b)

/-- ASCII decimal digit test. -/
def isDigitC (c : Char) : Bool :=
  48 ≤ c.toNat && c.toNat ≤ 57

/-- Numeric value of a digit character. -/
def digVal (c : Char) : Nat := c.toNat - 48

/-- Value of a digit string read most-significant first. -/
def digitsVal (cs : List Char) : Nat :=
  cs.foldl (fun a c => 10 * a + digVal c) 0

/-- Unsigned part of Python `float(s)` on plain decimal literals:
digits with an optional fractional part (`"12"`, `"12."`, `"12.5"`, `".5"`);
anything else is rejected, as `float` raises `ValueError`.
(Exponents and `inf`/`nan`, which `float` also accepts, never occur in the
inputs the claims quantify over and are not modelled.) -/
def pyFloatCore (cs : List Char) : Option ℚ :=
  let intPart := cs.takeWhile isDigitC
  match cs.dropWhile isDigitC with
  | [] => if intPart = [] then none else some (digitsVal intPart)
  | '.' :: frac =>
      if frac.all isDigitC ∧ (intPart ≠ [] ∨ frac ≠ []) then
        some ((digitsVal intPart : ℚ) + (digitsVal frac : ℚ) / (10 ^ frac.length))
      else none
  | _ => none

/-- Python `float(s)`: optional sign followed by a decimal literal. -/
def pyFloat (s : String) : Option ℚ :=
  match s.data with
  | '-' :: cs => (pyFloatCore cs).map (fun q => -q)
  | '+' :: cs => pyFloatCore cs
  | cs => pyFloatCore cs

/-- Python `str.split(sep)` for a one-character separator, on char lists:
`"".split(",") = [""]`, `"a,".split(",") = ["a",""]`, etc. -/
def splitOnChar (sep : Char) : List Char → List (List Char)
  | [] => [[]]
  | c :: cs =>
      match splitOnChar sep cs with
      | [] => [[c]]
      | g :: gs => if c = sep then [] :: g :: gs else (c :: g) :: gs

/-- Python `s.split(sep)` returning strings. -/
def pySplit (sep : Char) (s : String) : List String :=
  (splitOnChar sep s.data).map (fun cs => String.mk cs)

/-- Python `str.strip()`: drop whitespace from both ends. -/
def pyStrip (cs : List Char) : List Char :=
  ((cs.dropWhile Char.isWhitespace).reverse.dropWhile Char.isWhitespace).reverse

/-- Python `s.split(",")[1]`: the text between the first and second commas
(or after the only comma); raises `IndexError` when the line has no comma. -/
def pyField1 (s : String) : Option String :=
  match splitOnChar ',' s.data with
  | _ :: v :: _ => some (String.mk v)
  | _ => none

/-- One sample row: `[float(x) for x in raw.split(",")]`.  Note that the
length of the result is whatever the number of comma-separated fields was:
the Python code never checks it. -/
def rowParse (raw : String) : Option (List ℚ) :=
  (pySplit ',' raw).mapM pyFloat

/-- `MembraneFouling.__init__`: each header line contributes its
`split(",")[1]` field, the `sdi`/`ti`/`tf` ones additionally through
`float`; `data` starts empty.  Any failure raises, so the whole
construction fails. -/
def mfInit (date time sdi ti tf status : String) : Option MembraneFouling := do
  let d ← pyField1 date
  let t ← pyField1 time
  let sdiV ← pyField1 sdi >>= pyFloat
  let tiV ← pyField1 ti >>= pyFloat
  let tfV ← pyField1 tf >>= pyFloat
  let st ← pyField1 status
  pure ⟨d, t, sdiV, tiV, tfV, st, []⟩

/-- `MembraneFouling.add_data`: append one parsed row. -/
def MembraneFouling.add_data (mf : MembraneFouling) (raw : String) :
    Option MembraneFouling :=
  (rowParse raw).map (fun row => { mf with data := mf.data ++ [row] })

/-- The body of `parse` after splitting into lines: line 1 (and line 8) are
discarded, lines 2-7 feed the constructor, lines 9.. feed `add_data`.
Fewer than seven lines leaves `MembraneFouling(*lines[1:7])` with fewer
than six arguments, a `TypeError`, hence `none`. -/
def parseLines : List String → Option MembraneFouling
  | _l0 :: l1 :: l2 :: l3 :: l4 :: l5 :: l6 :: rest =>
      match mfInit l1 l2 l3 l4 l5 l6 with
      | none => none
      | some mf => (rest.drop 1).foldlM MembraneFouling.add_data mf
  | _ => none

/-- `parse`: strip the text, split on newlines, and process the lines. -/
def parse (text : String) : Option MembraneFouling :=
  parseLines ((splitOnChar '\n' (pyStrip text.data)).map (fun cs => String.mk cs))

/-- One comparison step of `search_index`'s loop: Python evaluates
`abs(d[column] - value) < abs(closest[column] - value)` (the candidate's
access first), and replaces the running best only on strict improvement. -/
def searchStep (c : Column) (v : ℚ) (acc nd : Nat × List ℚ) :
    Option (Nat × List ℚ) := do
  let x ← nd.2.get? c.toNat
  let b ← acc.2.get? c.toNat
  pure (if |x - v| < |b - v| then nd else acc)

/-- `MembraneFouling.search_index`: seed the running best with
`self.data[1]` (raising `IndexError` when there are fewer than 2 samples),
then scan `enumerate(self.data)` — positions `0..n-1` — replacing the best
whenever a row is strictly closer in the given column. -/
def MembraneFouling.search_index (mf : MembraneFouling) (c : Column) (v : ℚ) :
    Option (Nat × List ℚ) := do
  let closest ← mf.data.get? 1
  mf.data.enum.foldlM (searchStep c v) (1, closest)

/-- `MembraneFouling.search`: the row component of `search_index`. -/
def MembraneFouling.search (mf : MembraneFouling) (c : Column) (v : ℚ) :
    Option (List ℚ) :=
  (mf.search_index c v).map Prod.snd

/-- `calc_ti`: TIME of the row found by searching VOLUME for 500. -/
def MembraneFouling.calc_ti (mf : MembraneFouling) : Option ℚ := do
  let d ← mf.search Column.VOLUME 500
  d.get? Column.TIME.toNat

/-- `calc_tf5`: volume at TIME ≈ 300 s, then TIME at that volume + 500,
minus 300. -/
def MembraneFouling.calc_tf5 (mf : MembraneFouling) : Option ℚ := do
  let r5 ← mf.search Column.TIME (5 * 60)
  let v5 ← r5.get? Column.VOLUME.toNat
  let rt ← mf.search Column.VOLUME (v5 + 500)
  let tTotal ← rt.get? Column.TIME.toNat
  pure (tTotal - 5 * 60)

/-- `calc_tf15`: same as `calc_tf5` anchored at TIME ≈ 900 s. -/
def MembraneFouling.calc_tf15 (mf : MembraneFouling) : Option ℚ := do
  let r15 ← mf.search Column.TIME (15 * 60)
  let v15 ← r15.get? Column.VOLUME.toNat
  let rt ← mf.search Column.VOLUME (v15 + 500)
  let tTotal ← rt.get? Column.TIME.toNat
  pure (tTotal - 15 * 60)

/-- `calc_sdi15 = (1 - calc_ti() / calc_tf15()) * 100 / 15`; the division
raises `ZeroDivisionError` when `calc_tf15()` is zero. -/
def MembraneFouling.calc_sdi15 (mf : MembraneFouling) : Option ℚ := do
  let tiV ← mf.calc_ti
  let tfV ← mf.calc_tf15
  let q ← pyDiv tiV tfV
  pure ((1 - q) * 100 / 15)

/-- `calc_sdi5 = (1 - calc_ti() / calc_tf5()) * 100 / 5`; the division
raises `ZeroDivisionError` when `calc_tf5()` is zero. -/
def MembraneFouling.calc_sdi5 (mf : MembraneFouling) : Option ℚ := do
  let tiV ← mf.calc_ti
  let tfV ← mf.calc_tf5
  let q ← pyDiv tiV tfV
  pure ((1 - q) * 100 / 5)

/-- Python slice `l[a:b]` for natural indices. -/
def pySlice {α : Type} (l : List α) (a b : Nat) : List α :=
  (l.drop a).take (b - a)

/-- `sklearn.linear_model.LinearRegression().fit(x, y).coef_[0]` for a
single feature: ordinary least squares with an intercept.  `fit` raises on
an empty design; on a design whose centered column is identically zero
(e.g. a single sample) the underlying `lstsq` returns the minimum-norm
solution, i.e. slope 0, rather than raising. -/
def olsSlope (xs ys : List ℚ) : Option ℚ :=
  match xs with
  | [] => none
  | _ =>
      let n : ℚ := xs.length
      let xbar := xs.sum / n
      let ybar := ys.sum / n
      let sxx := (xs.map (fun x => (x - xbar) ^ 2)).sum
      let sxy := ((xs.zip ys).map (fun p => (p.1 - xbar) * (p.2 - ybar))).sum
      if sxx = 0 then some 0 else some (sxy / sxx)

/-- `calc_mfi`: slice the samples between the positions nearest TIME 300 s
and TIME 900 s (inclusive), build `x = VOLUME / 1000` and
`y = TIME / (VOLUME / 1000)` (the `y` expression raises on a zero volume),
and fit an OLS line, returning its slope. -/
def MembraneFouling.calc_mfi (mf : MembraneFouling) : Option ℚ := do
  let p5 ← mf.search_index Column.TIME (5 * 60)
  let p15 ← mf.search_index Column.TIME (15 * 60)
  let w := pySlice mf.data p5.1 (p15.1 + 1)
  let xs ← w.mapM (fun d => (d.get? Column.VOLUME.toNat).map (fun vol => vol / 1000))
  let ys ← w.mapM (fun d => do
      let t ← d.get? Column.TIME.toNat
      let vol ← d.get? Column.VOLUME.toNat
      pyDiv t (vol / 1000))
  olsSlope xs ys

/-- The batch-entry states of `ui.py` (`class State(Enum)`). -/
inductive State : Type
  | NEW
  | DONE
  | ERROR
deriving DecidableEq

/-- Python `','.join(parts)`. -/
def joinComma : List String → String
  | [] => ""
  | [s] => s
  | s :: rest => s ++ "," ++ joinComma rest

/-- `CSVWorker.run`, as the list of lines it writes: first the joined
header list, then — iterating the result table in its own (insertion)
order — one joined line per entry whose state is `DONE`, skipping the
others. -/
def CSVWorker.run (headers : List String) (data : List (String × List String))
    (st : String → State) : List String :=
  data.foldl
    (fun acc kv => if st kv.1 = State.DONE then acc ++ [joinComma kv.2] else acc)
    [joinComma headers]

example : pyFloat "12.5" = some (25 / 2) := by with_unfolding_all decide
example : pyFloat "-3" = some (-3) := by with_unfolding_all decide
example : pyFloat "abc" = none := by with_unfolding_all decide
example : pyField1 "a,b,c" = some "b" := by with_unfolding_all decide
example : rowParse "1,2,3" = some [1, 2, 3] := by with_unfolding_all decide
example :
    (parse "t\na,d\nb,t\nc,1\nd,2\ne,3\nf,ok\nhdr\n1,2,3,4").map
      MembraneFouling.data = some [[1, 2, 3, 4]] := by with_unfolding_all decide

/-- The synthetic five-sample record used by the spec's concrete check. -/
def exRecord : MembraneFouling :=
  ⟨"d", "t", 0, 0, 0, "s",
    [[0, 0, 0, 20], [300, 0, 150, 20], [600, 0, 500, 20],
     [900, 0, 700, 20], [1200, 0, 1000, 20]]⟩

example : exRecord.calc_ti = some 600 := by with_unfolding_all decide
example : exRecord.calc_tf5 = some 600 := by with_unfolding_all decide
example : exRecord.calc_tf15 = some 300 := by with_unfolding_all decide
example : exRecord.calc_sdi5 = some 0 := by with_unfolding_all decide
example : exRecord.calc_sdi15 = some (-20 / 3) := by with_unfolding_all decide
example :
    (⟨"d", "t", 0, 0, 0, "s", [[0, 0, 500, 20], [10, 0, 500, 20]]⟩ :
      MembraneFouling).search_index Column.VOLUME 500 =
      some (1, [10, 0, 500, 20]) := by with_unfolding_all decide
example :
    (⟨"d", "t", 0, 0, 0, "s", [[0, 0, 100, 20], [600, 0, 200, 20]]⟩ :
      MembraneFouling).calc_mfi = some 0 := by with_unfolding_all decide

/-! ### Reasoning layer for the nearest-sample scan -/

/-- Distance of a row from the target in the given column, for rows long
enough that `d[column]` does not raise. -/
def rdist (c : Column) (v : ℚ) (d : List ℚ) : ℚ :=
  |d.getD c.toNat 0 - v|

/-- The pure comparison step: what `searchStep` computes when both row
accesses succeed. -/
def stepP (c : Column) (v : ℚ) (acc nd : Nat × List ℚ) : Nat × List ℚ :=
  if rdist c v nd.2 < rdist c v acc.2 then nd else acc

theorem Column.toNat_lt (c : Column) : c.toNat < 4 := by
  cases c <;> simp [Column.toNat]

theorem get?_eq_some_getD {l : List ℚ} {n : Nat} (h : n < l.length) :
    l.get? n = some (l.getD n 0) := by
  rw [List.get?_eq_getElem?, List.getElem?_eq_getElem h, List.getD_eq_getElem _ _ h]

theorem searchStep_eq_some {c : Column} {v : ℚ} {acc nd : Nat × List ℚ}
    (ha : c.toNat < acc.2.length) (hn : c.toNat < nd.2.length) :
    searchStep c v acc nd = some (stepP c v acc nd) := by
  rw [searchStep, get?_eq_some_getD hn, get?_eq_some_getD ha]
  rfl

theorem stepP_length {c : Column} {v : ℚ} {acc nd : Nat × List ℚ}
    (ha : c.toNat < acc.2.length) (hn : c.toNat < nd.2.length) :
    c.toNat < (stepP c v acc nd).2.length := by
  rw [stepP]; split <;> assumption

theorem foldlM_searchStep (c : Column) (v : ℚ) :
    ∀ (l : List (Nat × List ℚ)) (acc : Nat × List ℚ),
      (∀ p ∈ l, c.toNat < p.2.length) → c.toNat < acc.2.length →
      List.foldlM (searchStep c v) acc l = some (List.foldl (stepP c v) acc l)
  | [], acc, _, _ => rfl
  | p :: l, acc, hl, ha => by
      have hp : c.toNat < p.2.length := hl p (List.mem_cons_self p l)
      rw [List.foldlM_cons, searchStep_eq_some ha hp]
      show List.foldlM (searchStep c v) (stepP c v acc p) l = _
      rw [foldlM_searchStep c v l (stepP c v acc p)
        (fun q hq => hl q (List.mem_cons_of_mem p hq)) (stepP_length ha hp)]
      rfl

/-- The scan result is the seed or one of the scanned elements. -/
theorem foldl_stepP_mem (c : Column) (v : ℚ) :
    ∀ (l : List (Nat × List ℚ)) (acc : Nat × List ℚ),
      List.foldl (stepP c v) acc l = acc ∨ List.foldl (stepP c v) acc l ∈ l
  | [], acc => Or.inl rfl
  | p :: l, acc => by
      rcases em (rdist c v p.2 < rdist c v acc.2) with hc | hc
      · have hstep : stepP c v acc p = p := by rw [stepP, if_pos hc]
        rw [List.foldl_cons, hstep]
        rcases foldl_stepP_mem c v l p with h | h
        · right; rw [h]; exact List.mem_cons_self p l
        · right; exact List.mem_cons_of_mem p h
      · have hstep : stepP c v acc p = acc := by rw [stepP, if_neg hc]
        rw [List.foldl_cons, hstep]
        rcases foldl_stepP_mem c v l acc with h | h
        · exact Or.inl h
        · right; exact List.mem_cons_of_mem p h

/-- The scan result's distance is minimal among the seed and every scanned
element. -/
theorem foldl_stepP_min (c : Column) (v : ℚ) :
    ∀ (l : List (Nat × List ℚ)) (acc : Nat × List ℚ),
      rdist c v (List.foldl (stepP c v) acc l).2 ≤ rdist c v acc.2 ∧
      ∀ p ∈ l, rdist c v (List.foldl (stepP c v) acc l).2 ≤ rdist c v p.2
  | [], acc => ⟨le_refl _, fun p hp => absurd hp (List.not_mem_nil p)⟩
  | p :: l, acc => by
      rcases em (rdist c v p.2 < rdist c v acc.2) with hc | hc
      · have hstep : stepP c v acc p = p := by rw [stepP, if_pos hc]
        rw [List.foldl_cons, hstep]
        obtain ⟨h1, h2⟩ := foldl_stepP_min c v l p
        refine ⟨le_trans h1 (le_of_lt hc), fun q hq => ?_⟩
        rcases List.mem_cons.1 hq with rfl | hq
        · exact h1
        · exact h2 q hq
      · have hstep : stepP c v acc p = acc := by rw [stepP, if_neg hc]
        rw [List.foldl_cons, hstep]
        obtain ⟨h1, h2⟩ := foldl_stepP_min c v l acc
        refine ⟨h1, fun q hq => ?_⟩
        rcases List.mem_cons.1 hq with rfl | hq
        · exact le_trans h1 (le_of_not_lt hc)
        · exact h2 q hq

/-- First-occurrence structure of the scan: either the seed survives, or
the result splits the scanned list and is strictly closer than the seed
and than everything scanned before it. -/
theorem foldl_stepP_first (c : Column) (v : ℚ) :
    ∀ (l : List (Nat × List ℚ)) (acc : Nat × List ℚ),
      List.foldl (stepP c v) acc l = acc ∨
      ∃ l₁ l₂, l = l₁ ++ List.foldl (stepP c v) acc l :: l₂ ∧
        rdist c v (List.foldl (stepP c v) acc l).2 < rdist c v acc.2 ∧
        ∀ q ∈ l₁, rdist c v (List.foldl (stepP c v) acc l).2 < rdist c v q.2
  | [], acc => Or.inl rfl
  | p :: l, acc => by
      rcases em (rdist c v p.2 < rdist c v acc.2) with hc | hc
      · have hstep : stepP c v acc p = p := by rw [stepP, if_pos hc]
        rw [List.foldl_cons, hstep]
        rcases foldl_stepP_first c v l p with h | ⟨l₁, l₂, hsplit, hlt, hall⟩
        · right
          refine ⟨[], l, ?_, ?_, fun q hq => absurd hq (List.not_mem_nil q)⟩
          · rw [h]; rfl
          · rw [h]; exact hc
        · right
          refine ⟨p :: l₁, l₂, ?_, lt_trans hlt hc, fun q hq => ?_⟩
          · rw [List.cons_append]; exact congrArg (List.cons p) hsplit
          · rcases List.mem_cons.1 hq with rfl | hq
            · exact hlt
            · exact hall q hq
      · have hstep : stepP c v acc p = acc := by rw [stepP, if_neg hc]
        rw [List.foldl_cons, hstep]
        rcases foldl_stepP_first c v l acc with h | ⟨l₁, l₂, hsplit, hlt, hall⟩
        · exact Or.inl h
        · right
          refine ⟨p :: l₁, l₂, ?_, hlt, fun q hq => ?_⟩
          · rw [List.cons_append]; exact congrArg (List.cons p) hsplit
          · rcases List.mem_cons.1 hq with rfl | hq
            · exact lt_of_lt_of_le hlt (le_of_not_lt hc)
            · exact hall q hq

theorem getElem?_enum' {α : Type} (l : List α) (n : Nat) :
    l.enum[n]? = l[n]?.map (fun a => (n, a)) := by
  simp [List.enum]

/-- Full characterisation of `search_index` on well-formed data with at
least two rows: it returns a position/row pair of the data, the row's
distance in the searched column is minimal over all rows, and the only way
an earlier position can tie with the returned one is the seed tie between
positions 0 and 1, resolved to position 1. -/
theorem search_index_char (mf : MembraneFouling) (c : Column) (v : ℚ)
    (h2 : 2 ≤ mf.data.length) (hwf : ∀ d ∈ mf.data, d.length = 4) :
    ∃ (i : Nat) (d : List ℚ), mf.search_index c v = some (i, d) ∧
      mf.data[i]? = some d ∧
      (∀ (j : Nat) (e : List ℚ), mf.data[j]? = some e → rdist c v d ≤ rdist c v e) ∧
      (∀ (j : Nat) (e : List ℚ), j < i → mf.data[j]? = some e →
        rdist c v e = rdist c v d → j = 0 ∧ i = 1) := by
  have h1 : 1 < mf.data.length := lt_of_lt_of_le one_lt_two h2
  have hd1 : mf.data.get? 1 = some (mf.data.get ⟨1, h1⟩) := List.get?_eq_get h1
  set d1 := mf.data.get ⟨1, h1⟩ with hd1def
  have hl : ∀ p ∈ mf.data.enum, c.toNat < p.2.length := by
    intro p hp
    have hmem : p.2 ∈ mf.data := List.getElem?_mem (List.mem_enum_iff_getElem?.1 hp)
    rw [hwf p.2 hmem]; exact Column.toNat_lt c
  have ha : c.toNat < d1.length := by
    rw [hwf d1 (List.get_mem mf.data 1 h1)]; exact Column.toNat_lt c
  obtain ⟨R, hRdef⟩ : ∃ R, List.foldl (stepP c v) (1, d1) mf.data.enum = R := ⟨_, rfl⟩
  have hmemR := foldl_stepP_mem c v mf.data.enum (1, d1)
  have hminR := foldl_stepP_min c v mf.data.enum (1, d1)
  have hfirstR := foldl_stepP_first c v mf.data.enum (1, d1)
  rw [hRdef] at hmemR hminR hfirstR
  have hsome : mf.search_index c v = some R := by
    rw [MembraneFouling.search_index, hd1]
    show mf.data.enum.foldlM (searchStep c v) (1, d1) = some R
    rw [foldlM_searchStep c v mf.data.enum (1, d1) hl ha, hRdef]
  have hgetR : mf.data[R.1]? = some R.2 := by
    rcases hmemR with h | h
    · rw [h]
      show mf.data[(1 : Nat)]? = some d1
      rw [← List.get?_eq_getElem?]; exact hd1
    · exact List.mem_enum_iff_getElem?.1 h
  refine ⟨R.1, R.2, by rw [hsome], hgetR, ?_, ?_⟩
  · intro j e hje
    exact hminR.2 (j, e) (List.mem_enum_iff_getElem?.2 hje)
  · intro j e hj hje heq
    rcases hfirstR with h | ⟨l₁, l₂, hsplit, hlt, hall⟩
    · have hR1 : R.1 = 1 := by rw [h]
      exact ⟨by omega, hR1⟩
    · have hRl : mf.data.enum[l₁.length]? = some R := by
        rw [hsplit, List.getElem?_append_right (le_refl l₁.length), Nat.sub_self]
        exact List.getElem?_cons_zero
      have hR1 : R.1 = l₁.length := by
        rw [getElem?_enum'] at hRl
        cases hx : mf.data[l₁.length]? with
        | none => rw [hx] at hRl; exact absurd hRl (by simp)
        | some a =>
            rw [hx] at hRl
            simp only [Option.map_some', Option.some_inj] at hRl
            rw [← hRl]
      have hj' : j < l₁.length := hR1 ▸ hj
      have hjl : (j, e) ∈ l₁ := by
        have henumj : mf.data.enum[j]? = some (j, e) := by
          rw [getElem?_enum', hje]; rfl
        rw [hsplit, List.getElem?_append_left hj'] at henumj
        exact List.getElem?_mem henumj
      have hcontra := hall (j, e) hjl
      rw [heq] at hcontra
      exact absurd hcontra (lt_irrefl _)

theorem search_eq_some {mf : MembraneFouling} {c : Column} {v : ℚ}
    {i : Nat} {d : List ℚ} (h : mf.search_index c v = some (i, d)) :
    mf.search c v = some d := by
  rw [MembraneFouling.search, h]; rfl

theorem row_get?_eq {mf : MembraneFouling} {d : List ℚ}
    (hwf : ∀ e ∈ mf.data, e.length = 4) (hd : d ∈ mf.data) (c : Column) :
    d.get? c.toNat = some (d.getD c.toNat 0) :=
  get?_eq_some_getD (by rw [hwf d hd]; exact Column.toNat_lt c)

/-- C1 (amended).  For every record with at least 2 well-formed samples,
`search_index(column, v)` returns a position/sample pair of the data whose
distance `|sample[column] - v|` is minimal over all samples.  The scan
seeds the running best with the element at position 1 and scans positions
`0..n-1`, replacing the best only when a later element is strictly closer;
consequently ties keep the earlier-found match EXCEPT the seed tie: when
positions 0 and 1 are both minimal, position 1 is returned (so the result
is not always the first-occurring nearest sample, and reordering
otherwise-identical data can change the result on such a tie). -/
theorem search_index_nearest (mf : MembraneFouling) (c : Column) (v : ℚ)
    (h2 : 2 ≤ mf.data.length) (hwf : ∀ d ∈ mf.data, d.length = 4) :
    ∃ (i : Nat) (d : List ℚ), mf.search_index c v = some (i, d) ∧
      mf.data[i]? = some d ∧
      (∀ (j : Nat) (e : List ℚ), mf.data[j]? = some e →
        |d.getD c.toNat 0 - v| ≤ |e.getD c.toNat 0 - v|) ∧
      (∀ (j : Nat) (e : List ℚ), j < i → mf.data[j]? = some e →
        |e.getD c.toNat 0 - v| = |d.getD c.toNat 0 - v| → j = 0 ∧ i = 1) :=
  search_index_char mf c v h2 hwf

/-- Witness for C1 at the five-sample record of the spec. -/
theorem search_index_nearest_witness :
    ∃ (i : Nat) (d : List ℚ), exRecord.search_index Column.VOLUME 500 = some (i, d) ∧
      exRecord.data[i]? = some d ∧
      (∀ (j : Nat) (e : List ℚ), exRecord.data[j]? = some e →
        |d.getD Column.VOLUME.toNat 0 - 500| ≤ |e.getD Column.VOLUME.toNat 0 - 500|) ∧
      (∀ (j : Nat) (e : List ℚ), j < i → exRecord.data[j]? = some e →
        |e.getD Column.VOLUME.toNat 0 - 500| = |d.getD Column.VOLUME.toNat 0 - 500| →
        j = 0 ∧ i = 1) :=
  search_index_nearest exRecord Column.VOLUME 500 (by with_unfolding_all decide)
    (by with_unfolding_all decide)

/-- C1 counterexample.  Two samples whose VOLUME is exactly 500: both are
at distance 0 from the target, so the first-occurring nearest sample is at
position 0, yet `search_index` returns position 1 (the seed wins the tie).
Reversing the scan order of the same two rows returns the other sample, so
the result is not invariant under reordering otherwise-identical data. -/
theorem search_index_tie_cex :
    (MembraneFouling.mk "d" "t" 0 0 0 "s"
        [[0, 0, 500, 20], [10, 0, 500, 20]]).search_index Column.VOLUME 500 =
      some (1, [10, 0, 500, 20]) ∧
    |([0, 0, 500, 20] : List ℚ).getD Column.VOLUME.toNat 0 - 500| =
      |([10, 0, 500, 20] : List ℚ).getD Column.VOLUME.toNat 0 - 500| ∧
    (MembraneFouling.mk "d" "t" 0 0 0 "s"
        [[10, 0, 500, 20], [0, 0, 500, 20]]).search_index Column.VOLUME 500 =
      some (1, [0, 0, 500, 20]) ∧
    ([10, 0, 500, 20] : List ℚ) ≠ [0, 0, 500, 20] := by
  refine ⟨?_, ?_, ?_, ?_⟩ <;> with_unfolding_all decide

/-- C6.  For every record with at least 2 well-formed samples, `calc_ti`
returns the TIME field of a sample whose VOLUME is nearest to 500; on the
spec's synthetic five-sample record it returns 600. -/
theorem calc_ti_nearest :
    (∀ mf : MembraneFouling, 2 ≤ mf.data.length → (∀ d ∈ mf.data, d.length = 4) →
      ∃ d, d ∈ mf.data ∧
        (∀ e ∈ mf.data,
          |d.getD Column.VOLUME.toNat 0 - 500| ≤ |e.getD Column.VOLUME.toNat 0 - 500|) ∧
        mf.calc_ti = some (d.getD Column.TIME.toNat 0)) ∧
    exRecord.calc_ti = some 600 := by
  constructor
  · intro mf h2 hwf
    obtain ⟨i, d, hsome, hget, hmin, -⟩ := search_index_char mf Column.VOLUME 500 h2 hwf
    have hd : d ∈ mf.data := List.getElem?_mem hget
    refine ⟨d, hd, ?_, ?_⟩
    · intro e he
      obtain ⟨n, hn⟩ := List.mem_iff_getElem?.1 he
      exact hmin n e hn
    · have hlen : Column.TIME.toNat < d.length := by
        rw [hwf d hd]; exact Column.toNat_lt _
      simp [MembraneFouling.calc_ti, search_eq_some hsome,
        List.getElem?_eq_getElem hlen, List.getD_eq_getElem _ _ hlen]
  · with_unfolding_all decide

/-- Witness for the universal part of C6, at the same record. -/
theorem calc_ti_nearest_witness :
    ∃ d, d ∈ exRecord.data ∧
      (∀ e ∈ exRecord.data,
        |d.getD Column.VOLUME.toNat 0 - 500| ≤ |e.getD Column.VOLUME.toNat 0 - 500|) ∧
      exRecord.calc_ti = some (d.getD Column.TIME.toNat 0) :=
  calc_ti_nearest.1 exRecord (by with_unfolding_all decide) (by with_unfolding_all decide)

/-- C9.  `calc_ti`, `calc_tf5`, `calc_tf15` depend only on `samples`
(`self.data`): two records with identical samples and arbitrary metadata
give identical results. -/
theorem calc_metadata_independence (r1 r2 : MembraneFouling) (h : r1.data = r2.data) :
    r1.calc_ti = r2.calc_ti ∧ r1.calc_tf5 = r2.calc_tf5 ∧ r1.calc_tf15 = r2.calc_tf15 := by
  obtain ⟨d1, t1, s1, ti1, tf1, st1, dat1⟩ := r1
  obtain ⟨d2, t2, s2, ti2, tf2, st2, dat2⟩ := r2
  cases h
  exact ⟨rfl, rfl, rfl⟩

/-- Witness for C9: same samples, entirely different metadata. -/
theorem calc_metadata_independence_witness :
    (MembraneFouling.mk "a" "b" 1 2 3 "x"
        [[0, 0, 0, 20], [300, 0, 150, 20]]).calc_ti =
      (MembraneFouling.mk "c" "d" 4 5 6 "y"
        [[0, 0, 0, 20], [300, 0, 150, 20]]).calc_ti ∧
    (MembraneFouling.mk "a" "b" 1 2 3 "x"
        [[0, 0, 0, 20], [300, 0, 150, 20]]).calc_tf5 =
      (MembraneFouling.mk "c" "d" 4 5 6 "y"
        [[0, 0, 0, 20], [300, 0, 150, 20]]).calc_tf5 ∧
    (MembraneFouling.mk "a" "b" 1 2 3 "x"
        [[0, 0, 0, 20], [300, 0, 150, 20]]).calc_tf15 =
      (MembraneFouling.mk "c" "d" 4 5 6 "y"
        [[0, 0, 0, 20], [300, 0, 150, 20]]).calc_tf15 :=
  calc_metadata_independence _ _ rfl

/-- C7.  For every record with at least 2 well-formed samples: `calc_tf5`
returns (TIME of a sample whose VOLUME is nearest to `v300 + 500`) minus
300, where `v300` is the VOLUME of a sample whose TIME is nearest to 300 s;
`calc_tf15` follows the same pattern anchored at TIME nearest 900 s, minus
900. -/
theorem calc_tf_nearest (mf : MembraneFouling) (h2 : 2 ≤ mf.data.length)
    (hwf : ∀ d ∈ mf.data, d.length = 4) :
    (∃ s1 s2, s1 ∈ mf.data ∧ s2 ∈ mf.data ∧
      (∀ e ∈ mf.data,
        |s1.getD Column.TIME.toNat 0 - 300| ≤ |e.getD Column.TIME.toNat 0 - 300|) ∧
      (∀ e ∈ mf.data,
        |s2.getD Column.VOLUME.toNat 0 - (s1.getD Column.VOLUME.toNat 0 + 500)| ≤
          |e.getD Column.VOLUME.toNat 0 - (s1.getD Column.VOLUME.toNat 0 + 500)|) ∧
      mf.calc_tf5 = some (s2.getD Column.TIME.toNat 0 - 300)) ∧
    (∃ s1 s2, s1 ∈ mf.data ∧ s2 ∈ mf.data ∧
      (∀ e ∈ mf.data,
        |s1.getD Column.TIME.toNat 0 - 900| ≤ |e.getD Column.TIME.toNat 0 - 900|) ∧
      (∀ e ∈ mf.data,
        |s2.getD Column.VOLUME.toNat 0 - (s1.getD Column.VOLUME.toNat 0 + 500)| ≤
          |e.getD Column.VOLUME.toNat 0 - (s1.getD Column.VOLUME.toNat 0 + 500)|) ∧
      mf.calc_tf15 = some (s2.getD Column.TIME.toNat 0 - 900)) := by
  constructor
  · obtain ⟨i1, s1, hs1some, hs1get, hs1min, -⟩ :=
      search_index_char mf Column.TIME 300 h2 hwf
    have hs1 : s1 ∈ mf.data := List.getElem?_mem hs1get
    obtain ⟨i2, s2, hs2some, hs2get, hs2min, -⟩ :=
      search_index_char mf Column.VOLUME (s1.getD Column.VOLUME.toNat 0 + 500) h2 hwf
    have hs2 : s2 ∈ mf.data := List.getElem?_mem hs2get
    refine ⟨s1, s2, hs1, hs2, ?_, ?_, ?_⟩
    · intro e he
      obtain ⟨n, hn⟩ := List.mem_iff_getElem?.1 he
      exact hs1min n e hn
    · intro e he
      obtain ⟨n, hn⟩ := List.mem_iff_getElem?.1 he
      exact hs2min n e hn
    · have h300 : (5 * 60 : ℚ) = 300 := by norm_num
      have hsearch1 : mf.search Column.TIME (5 * 60) = some s1 := by
        rw [h300]; exact search_eq_some hs1some
      simp only [MembraneFouling.calc_tf5, hsearch1, row_get?_eq hwf hs1 Column.VOLUME,
        search_eq_some hs2some, row_get?_eq hwf hs2 Column.TIME, Option.some_bind,
        Option.bind_eq_bind]
      rw [h300]
      rfl
  · obtain ⟨i1, s1, hs1some, hs1get, hs1min, -⟩ :=
      search_index_char mf Column.TIME 900 h2 hwf
    have hs1 : s1 ∈ mf.data := List.getElem?_mem hs1get
    obtain ⟨i2, s2, hs2some, hs2get, hs2min, -⟩ :=
      search_index_char mf Column.VOLUME (s1.getD Column.VOLUME.toNat 0 + 500) h2 hwf
    have hs2 : s2 ∈ mf.data := List.getElem?_mem hs2get
    refine ⟨s1, s2, hs1, hs2, ?_, ?_, ?_⟩
    · intro e he
      obtain ⟨n, hn⟩ := List.mem_iff_getElem?.1 he
      exact hs1min n e hn
    · intro e he
      obtain ⟨n, hn⟩ := List.mem_iff_getElem?.1 he
      exact hs2min n e hn
    · have h900 : (15 * 60 : ℚ) = 900 := by norm_num
      have hsearch1 : mf.search Column.TIME (15 * 60) = some s1 := by
        rw [h900]; exact search_eq_some hs1some
      simp only [MembraneFouling.calc_tf15, hsearch1, row_get?_eq hwf hs1 Column.VOLUME,
        search_eq_some hs2some, row_get?_eq hwf hs2 Column.TIME, Option.some_bind,
        Option.bind_eq_bind]
      rw [h900]
      rfl

/-- Witness for C7 at the five-sample record. -/
theorem calc_tf_nearest_witness :
    ∃ s1 s2, s1 ∈ exRecord.data ∧ s2 ∈ exRecord.data ∧
      (∀ e ∈ exRecord.data,
        |s1.getD Column.TIME.toNat 0 - 300| ≤ |e.getD Column.TIME.toNat 0 - 300|) ∧
      (∀ e ∈ exRecord.data,
        |s2.getD Column.VOLUME.toNat 0 - (s1.getD Column.VOLUME.toNat 0 + 500)| ≤
          |e.getD Column.VOLUME.toNat 0 - (s1.getD Column.VOLUME.toNat 0 + 500)|) ∧
      exRecord.calc_tf5 = some (s2.getD Column.TIME.toNat 0 - 300) :=
  (calc_tf_nearest exRecord (by with_unfolding_all decide)
    (by with_unfolding_all decide)).1

/-- C5.  Whenever `calc_ti`, `calc_tf5`, `calc_tf15` succeed with values
`a`, `b`, `c`: `calc_sdi5` returns `(1 - a/b) * 100 / 5` when `b ≠ 0` and
fails when `b = 0`; `calc_sdi15` returns `(1 - a/c) * 100 / 15` when
`c ≠ 0` and fails when `c = 0`. -/
theorem calc_sdi_formulas (mf : MembraneFouling) (a b c : ℚ)
    (hti : mf.calc_ti = some a) (htf5 : mf.calc_tf5 = some b)
    (htf15 : mf.calc_tf15 = some c) :
    (b ≠ 0 → mf.calc_sdi5 = some ((1 - a / b) * 100 / 5)) ∧
    (b = 0 → mf.calc_sdi5 = none) ∧
    (c ≠ 0 → mf.calc_sdi15 = some ((1 - a / c) * 100 / 15)) ∧
    (c = 0 → mf.calc_sdi15 = none) := by
  refine ⟨fun hb => ?_, fun hb => ?_, fun hc => ?_, fun hc => ?_⟩
  · simp [MembraneFouling.calc_sdi5, hti, htf5, pyDiv, hb]
  · simp [MembraneFouling.calc_sdi5, hti, htf5, pyDiv, hb]
  · simp [MembraneFouling.calc_sdi15, hti, htf15, pyDiv, hc]
  · simp [MembraneFouling.calc_sdi15, hti, htf15, pyDiv, hc]

/-- Witness for C5 at the five-sample record (`ti = 600`, `tf5 = 600`,
`tf15 = 300`). -/
theorem calc_sdi_formulas_witness :
    exRecord.calc_sdi5 = some ((1 - 600 / 600) * 100 / 5) ∧
    exRecord.calc_sdi15 = some ((1 - 600 / 300) * 100 / 15) := by
  have h := calc_sdi_formulas exRecord 600 600 300 (by with_unfolding_all decide)
    (by with_unfolding_all decide) (by with_unfolding_all decide)
  exact ⟨h.1 (by norm_num), h.2.2.1 (by norm_num)⟩

/-! ### Parser and export claims -/

theorem mfInit_fields {l1 l2 l3 l4 l5 l6 : String} {mf : MembraneFouling}
    (h : mfInit l1 l2 l3 l4 l5 l6 = some mf) :
    pyField1 l1 = some mf.date ∧ pyField1 l2 = some mf.time ∧
    (pyField1 l3 >>= pyFloat) = some mf.sdi ∧
    (pyField1 l4 >>= pyFloat) = some mf.ti ∧
    (pyField1 l5 >>= pyFloat) = some mf.tf ∧
    pyField1 l6 = some mf.status ∧ mf.data = [] := by
  rw [mfInit] at h
  simp only [bind, Option.bind_eq_some, pure, Option.some_inj] at h
  obtain ⟨d, hd, t, ht, sv, hsv, tv, htv, fv, hfv, st, hst, hmf⟩ := h
  subst hmf
  refine ⟨hd, ht, ?_, ?_, ?_, hst, rfl⟩ <;> simp only [bind, Option.bind_eq_some]
  exacts [hsv, htv, hfv]

theorem foldlM_add_data (rows : List String) (mf : MembraneFouling) :
    rows.foldlM MembraneFouling.add_data mf =
      (rows.mapM rowParse).map (fun ds => { mf with data := mf.data ++ ds }) := by
  induction rows generalizing mf with
  | nil => rw [List.foldlM_nil, List.mapM_nil]; simp
  | cons r rows ih =>
      rw [List.foldlM_cons, List.mapM_cons]
      cases hr : rowParse r with
      | none => simp [MembraneFouling.add_data, hr]
      | some row =>
          simp only [MembraneFouling.add_data, hr, Option.map_some', Option.some_bind,
            Option.bind_eq_bind]
          rw [ih]
          cases hm : rows.mapM rowParse with
          | none => simp
          | some ds => simp

/-- C2 (amended).  Sample-row parsing: each line after line 8 is split on
commas and every field must parse as a float — a non-numeric field fails
the whole parse (no partial record is returned) — but the number of fields
per row is NOT checked: any field count is accepted, and the rows are
appended in file order. -/
theorem parse_rows_unchecked (l0 l1 l2 l3 l4 l5 l6 l7 : String)
    (rows : List String) :
    parseLines (l0 :: l1 :: l2 :: l3 :: l4 :: l5 :: l6 :: l7 :: rows) =
      (mfInit l1 l2 l3 l4 l5 l6).bind
        (fun mf => (rows.mapM rowParse).map (fun ds => { mf with data := ds })) := by
  show (match mfInit l1 l2 l3 l4 l5 l6 with
    | none => none
    | some mf => ((l7 :: rows).drop 1).foldlM MembraneFouling.add_data mf) = _
  cases hm : mfInit l1 l2 l3 l4 l5 l6 with
  | none => rfl
  | some mf =>
      show rows.foldlM MembraneFouling.add_data mf = _
      rw [foldlM_add_data]
      have hdata : mf.data = [] := (mfInit_fields hm).2.2.2.2.2.2
      simp [hdata]

/-- C2 counterexample: a sample row with only three (numeric) fields
parses successfully, so a wrong field count does not fail the parse as the
claim requires. -/
theorem parse_three_field_row_cex :
    parse "t\na,d\nb,t\nc,1\nd,2\ne,3\nf,ok\nhdr\n1,2,3" =
      some (MembraneFouling.mk "d" "t" 1 2 3 "ok" [[1, 2, 3]]) ∧
    ([1, 2, 3] : List ℚ).length ≠ 4 := by
  constructor <;> with_unfolding_all decide

/-- Witness for C2 at a concrete input: a non-numeric sample field makes
the whole parse fail. -/
theorem parse_rows_unchecked_witness :
    parseLines ["t", "a,d", "b,t", "c,1", "d,2", "e,3", "f,ok", "hdr", "1,x,3,4"] =
      none := by
  rw [parse_rows_unchecked "t" "a,d" "b,t" "c,1" "d,2" "e,3" "f,ok" "hdr" ["1,x,3,4"]]
  with_unfolding_all decide

/-- C3 (amended).  Lines 2-7 are header fields read in fixed order as
`date, time-of-day, sdi, ti-declared, tf-declared, status`; the extracted
value is `line.split(",")[1]` — the text between the first and second
commas, NOT the entire text after the first comma — and the three numeric
fields (`sdi`, `ti-declared`, `tf-declared`) must parse as floats or the
parse fails (the other three are kept as strings). -/
theorem parse_header_fields (l0 l1 l2 l3 l4 l5 l6 : String) (rest : List String) :
    (∀ mf : MembraneFouling,
      parseLines (l0 :: l1 :: l2 :: l3 :: l4 :: l5 :: l6 :: rest) = some mf →
      pyField1 l1 = some mf.date ∧ pyField1 l2 = some mf.time ∧
      (pyField1 l3 >>= pyFloat) = some mf.sdi ∧
      (pyField1 l4 >>= pyFloat) = some mf.ti ∧
      (pyField1 l5 >>= pyFloat) = some mf.tf ∧
      pyField1 l6 = some mf.status) ∧
    ((pyField1 l3 >>= pyFloat) = none ∨ (pyField1 l4 >>= pyFloat) = none ∨
        (pyField1 l5 >>= pyFloat) = none →
      parseLines (l0 :: l1 :: l2 :: l3 :: l4 :: l5 :: l6 :: rest) = none) := by
  constructor
  · intro mf h
    have h' : (match mfInit l1 l2 l3 l4 l5 l6 with
      | none => none
      | some mf0 => (rest.drop 1).foldlM MembraneFouling.add_data mf0) = some mf := h
    clear h
    cases hm : mfInit l1 l2 l3 l4 l5 l6 with
    | none => rw [hm] at h'; exact absurd h' (by simp)
    | some mf0 =>
        rw [hm] at h'
        have h2 : (rest.drop 1).foldlM MembraneFouling.add_data mf0 = some mf := h'
        rw [foldlM_add_data] at h2
        cases hds : (rest.drop 1).mapM rowParse with
        | none => rw [hds] at h2; exact absurd h2 (by simp)
        | some ds =>
            rw [hds] at h2
            simp only [Option.map_some', Option.some_inj] at h2
            obtain ⟨f1, f2, f3, f4, f5, f6, -⟩ := mfInit_fields hm
            subst h2
            exact ⟨f1, f2, f3, f4, f5, f6⟩
  · intro h
    show (match mfInit l1 l2 l3 l4 l5 l6 with
      | none => none
      | some mf0 => (rest.drop 1).foldlM MembraneFouling.add_data mf0) = none
    cases hm : mfInit l1 l2 l3 l4 l5 l6 with
    | none => rfl
    | some mf0 =>
        obtain ⟨-, -, h3, h4, h5, -, -⟩ := mfInit_fields hm
        rcases h with h | h | h
        · rw [h] at h3; exact absurd h3 (by simp)
        · rw [h] at h4; exact absurd h4 (by simp)
        · rw [h] at h5; exact absurd h5 (by simp)

/-- C3 counterexample: a header line `lbl,x,y` yields the value `"x"`, not
the entire text after the first comma (`"x,y"`); and the parse succeeds
although `date`, `time`, `status` are non-numeric, so only three fields —
not four — are required to parse as floats. -/
theorem parse_header_cex :
    (parse "t\nlbl,x,y\nb,t\nc,1\nd,2\ne,3\nf,ok\nhdr").map MembraneFouling.date =
      some "x" ∧
    "x" ≠ "x,y" ∧
    pyFloat "x" = none ∧ pyFloat "t" = none ∧ pyFloat "ok" = none ∧
    (parse "t\nlbl,x,y\nb,t\nc,1\nd,2\ne,3\nf,ok\nhdr").isSome = true := by
  refine ⟨?_, ?_, ?_, ?_, ?_, ?_⟩ <;> with_unfolding_all decide

/-- Witness for C3 at a concrete input: a non-numeric `sdi` header value
fails the parse. -/
theorem parse_header_fields_witness :
    parseLines ["t", "a,d", "b,t", "c,x", "d,2", "e,3", "f,ok"] = none :=
  (parse_header_fields "t" "a,d" "b,t" "c,x" "d,2" "e,3" "f,ok" []).2
    (Or.inl (by with_unfolding_all decide))

theorem foldl_csv_filter (st : String → State) (l : List (String × List String)) :
    ∀ acc : List String,
      l.foldl
        (fun acc kv => if st kv.1 = State.DONE then acc ++ [joinComma kv.2] else acc)
        acc =
      acc ++ (l.filter (fun kv => decide (st kv.1 = State.DONE))).map
        (fun kv => joinComma kv.2) := by
  induction l with
  | nil => intro acc; simp
  | cons kv l ih =>
      intro acc
      rw [List.foldl_cons]
      by_cases h : st kv.1 = State.DONE
      · rw [if_pos h, ih, List.filter_cons, if_pos (by simpa using h)]
        simp
      · rw [if_neg h, ih, List.filter_cons, if_neg (by simpa using h)]

/-- C4 (amended).  The export writes the comma-joined header list first,
then exactly one comma-joined line per entry currently in state `DONE`,
excluding `NEW` and `ERROR` entries — but the lines appear in the result
table's own iteration (insertion) order, NOT in identifier-lexicographic
order (the worker iterates `data.items()` without sorting). -/
theorem csv_run_lines (headers : List String) (data : List (String × List String))
    (st : String → State) :
    CSVWorker.run headers data st =
      joinComma headers ::
        (data.filter (fun kv => decide (st kv.1 = State.DONE))).map
          (fun kv => joinComma kv.2) := by
  rw [CSVWorker.run, foldl_csv_filter]
  rfl

/-- C4 counterexample: both entries are `DONE` and the table iterates
`"b"` before `"a"`; the exported lines keep that order instead of the
identifier-lexicographic order the claim requires. -/
theorem csv_run_order_cex :
    CSVWorker.run ["File"] [("b", ["b"]), ("a", ["a"])] (fun _ => State.DONE) =
      ["File", "b", "a"] ∧
    ["File", "b", "a"] ≠ ["File", "a", "b"] := by
  constructor <;> with_unfolding_all decide

/-! ### Regression-window claims -/

theorem mapM_eq_none {α β : Type} (f : α → Option β) :
    ∀ (l : List α) (a : α), a ∈ l → f a = none → l.mapM f = none
  | b :: l, a, ha, hfa => by
      rw [List.mapM_cons]
      rcases List.mem_cons.1 ha with rfl | ha
      · rw [hfa]; rfl
      · cases hb : f b with
        | none => rfl
        | some y => rw [mapM_eq_none f l a ha hfa]; rfl

/-- C10.  If some sample inside the inclusive 300 s-to-900 s regression
window has VOLUME equal to 0, `calc_mfi` fails (the computation of
`y = TIME / (VOLUME / 1000)` raises `ZeroDivisionError`) and never returns
a slope. -/
theorem calc_mfi_zero_volume (mf : MembraneFouling) (i5 i15 : Nat)
    (d5 d15 row : List ℚ)
    (h5 : mf.search_index Column.TIME 300 = some (i5, d5))
    (h15 : mf.search_index Column.TIME 900 = some (i15, d15))
    (hrow : row ∈ pySlice mf.data i5 (i15 + 1))
    (hv : row.get? Column.VOLUME.toNat = some 0) :
    mf.calc_mfi = none := by
  have e5 : (5 * 60 : ℚ) = 300 := by norm_num
  have e15 : (15 * 60 : ℚ) = 900 := by norm_num
  have hstep : mf.calc_mfi =
      ((pySlice mf.data i5 (i15 + 1)).mapM
          (fun (d : List ℚ) => (d.get? Column.VOLUME.toNat).map (fun vol => vol / 1000))).bind
        (fun xs =>
          ((pySlice mf.data i5 (i15 + 1)).mapM (fun (d : List ℚ) => do
              let t ← d.get? Column.TIME.toNat
              let vol ← d.get? Column.VOLUME.toNat
              pyDiv t (vol / 1000))).bind
            (fun ys => olsSlope xs ys)) := by
    rw [MembraneFouling.calc_mfi, e5, e15, h5, h15]
    rfl
  have hys : (pySlice mf.data i5 (i15 + 1)).mapM (fun (d : List ℚ) => do
      let t ← d.get? Column.TIME.toNat
      let vol ← d.get? Column.VOLUME.toNat
      pyDiv t (vol / 1000)) = none := by
    apply mapM_eq_none _ _ row hrow
    cases ht : row.get? Column.TIME.toNat with
    | none => rfl
    | some t =>
        show (row.get? Column.VOLUME.toNat).bind (fun vol => pyDiv t (vol / 1000)) = none
        rw [hv, Option.some_bind, pyDiv]
        rw [if_pos (show (0 : ℚ) / 1000 = 0 by norm_num)]
  cases hxs : (pySlice mf.data i5 (i15 + 1)).mapM
      (fun (d : List ℚ) => (d.get? Column.VOLUME.toNat).map (fun vol => vol / 1000)) with
  | none => rw [hstep, hxs]; rfl
  | some xs => rw [hstep, hxs, Option.some_bind, hys]; rfl

/-- Witness for C10: a two-sample record whose single-sample window has
VOLUME 0 makes `calc_mfi` fail. -/
theorem calc_mfi_zero_volume_witness :
    (MembraneFouling.mk "d" "t" 0 0 0 "s"
      [[0, 0, 0, 20], [600, 0, 0, 20]]).calc_mfi = none :=
  calc_mfi_zero_volume _ 1 1 [600, 0, 0, 20] [600, 0, 0, 20] [600, 0, 0, 20]
    (by with_unfolding_all decide) (by with_unfolding_all decide)
    (by with_unfolding_all decide) (by with_unfolding_all decide)

/-- C8 (amended).  `calc_mfi` selects the inclusive slice of samples
between the position nearest TIME 300 s and the position nearest TIME
900 s.  When that slice is empty the operation fails (the fit rejects an
empty design), but when it contains exactly one point (fewer than 2, with
nonzero volume) the degenerate least-squares fit returns slope 0 instead
of failing. -/
theorem calc_mfi_window (mf : MembraneFouling) (i5 i15 : Nat) (d5 d15 : List ℚ)
    (hwf : ∀ d ∈ mf.data, d.length = 4)
    (h5 : mf.search_index Column.TIME 300 = some (i5, d5))
    (h15 : mf.search_index Column.TIME 900 = some (i15, d15)) :
    (pySlice mf.data i5 (i15 + 1) = [] → mf.calc_mfi = none) ∧
    (∀ row : List ℚ, pySlice mf.data i5 (i15 + 1) = [row] →
      row.getD Column.VOLUME.toNat 0 ≠ 0 → mf.calc_mfi = some 0) := by
  have e5 : (5 * 60 : ℚ) = 300 := by norm_num
  have e15 : (15 * 60 : ℚ) = 900 := by norm_num
  have hstep : mf.calc_mfi =
      ((pySlice mf.data i5 (i15 + 1)).mapM
          (fun (d : List ℚ) => (d.get? Column.VOLUME.toNat).map (fun vol => vol / 1000))).bind
        (fun xs =>
          ((pySlice mf.data i5 (i15 + 1)).mapM (fun (d : List ℚ) => do
              let t ← d.get? Column.TIME.toNat
              let vol ← d.get? Column.VOLUME.toNat
              pyDiv t (vol / 1000))).bind
            (fun ys => olsSlope xs ys)) := by
    rw [MembraneFouling.calc_mfi, e5, e15, h5, h15]
    rfl
  constructor
  · intro hw
    rw [hstep, hw]
    rfl
  · intro row hw hvol
    have hrow : row ∈ mf.data := by
      have hmem : row ∈ pySlice mf.data i5 (i15 + 1) := by
        rw [hw]; exact List.mem_singleton.2 rfl
      exact List.mem_of_mem_drop (List.mem_of_mem_take hmem)
    have hg0 := row_get?_eq hwf hrow Column.TIME
    have hg2 := row_get?_eq hwf hrow Column.VOLUME
    have hdiv : row.getD Column.VOLUME.toNat 0 / 1000 ≠ 0 :=
      div_ne_zero hvol (by norm_num)
    rw [hstep, hw]
    rw [List.mapM_cons, List.mapM_nil, List.mapM_cons, List.mapM_nil, hg0, hg2]
    simp only [Option.map_some', Option.some_bind, Option.bind_eq_bind, pure,
      pyDiv, if_neg hdiv]
    simp [olsSlope]

/-- Witness for C8: on a two-sample record whose window is the single
second sample, `calc_mfi` returns slope 0. -/
theorem calc_mfi_window_witness :
    (MembraneFouling.mk "d" "t" 0 0 0 "s"
      [[0, 0, 100, 20], [600, 0, 200, 20]]).calc_mfi = some 0 :=
  (calc_mfi_window _ 1 1 [600, 0, 200, 20] [600, 0, 200, 20]
    (by with_unfolding_all decide) (by with_unfolding_all decide)
    (by with_unfolding_all decide)).2 [600, 0, 200, 20]
    (by with_unfolding_all decide) (by with_unfolding_all decide)

/-- C8 counterexample: a record whose regression window contains exactly
one sample — fewer than 2 points — on which `calc_mfi` returns slope 0
instead of failing as the claim requires. -/
theorem calc_mfi_single_point_cex :
    (MembraneFouling.mk "d" "t" 0 0 0 "s"
        [[0, 0, 100, 20], [600, 0, 200, 20]]).search_index Column.TIME 300 =
      some (1, [600, 0, 200, 20]) ∧
    (MembraneFouling.mk "d" "t" 0 0 0 "s"
        [[0, 0, 100, 20], [600, 0, 200, 20]]).search_index Column.TIME 900 =
      some (1, [600, 0, 200, 20]) ∧
    (pySlice ([[0, 0, 100, 20], [600, 0, 200, 20]] : List (List ℚ)) 1 2).length = 1 ∧
    (MembraneFouling.mk "d" "t" 0 0 0 "s"
        [[0, 0, 100, 20], [600, 0, 200, 20]]).calc_mfi = some 0 := by
  refine ⟨?_, ?_, ?_, ?_⟩ <;> with_unfolding_all decide

end MF
